import Mathlib

/-!
Shallow embedding of `synapse/notifier.py` (the long-poll notification
engine): the `_NotificationListener` class, the `Notifier` class and its
two registry indices, and the operations the specification describes.

Modelling conventions:
* listener objects are named by `Nat` identifiers; the immutable
  constructor data of each listener lives in `NotifierState.listeners`;
* a Twisted `Deferred` is a single-write cell `Option Result`;
  `deferred.callback` on an already-fired deferred raises
  `AlreadyCalledError`, which `notify` catches and ignores — modelled by
  keeping the first value (`Option.getD`);
* a Python `dict` of `set`s is a total function `Nat → Option (Finset Nat)`;
  `d.get(k, set())` is `(m k).getD ∅` and `d.setdefault(k, set())`
  materialises the entry;
* event sources are opaque pure functions
  `get_new_events_for_user : user → from_token → limit → (events, new_token)`;
* the reactor is not modelled: `reactor.callLater(timeout, _timeout_listener, l)`
  firing later is represented by applying `timeout_listener` to a later state.
-/

namespace Synapse

abbrev Token := Nat

abbrev Event := Nat

/-- The value a listener's deferred is fired with:
`(events, (start_token, end_token))`, as built in
`_NotificationListener.notify`. -/
abbrev Result := List Event × (Token × Token)

/-- An event source's `get_new_events_for_user(user, from_key, limit)`. -/
abbrev Source := Nat → Token → Nat → List Event × Token

/-- Constructor data of `_NotificationListener` (the deferred is kept
separately, in `NotifierState.deferreds`). -/
structure Listener where
  user : Nat
  rooms : List Nat
  from_token : Token
  limit : Nat
  timeout : Nat
  deriving DecidableEq, Repr

/-- The mutable state of a `Notifier` together with the deferreds of all
listener objects. `listeners` maps a listener id to its constructor data. -/
@[ext]
structure NotifierState where
  rooms_to_listeners : Nat → Option (Finset Nat)
  user_to_listeners : Nat → Option (Finset Nat)
  listeners : Nat → Listener
  deferreds : Nat → Option Result

/-- `d.get(k, set()).discard(x)`: mutates the stored set when the entry
exists, does nothing when it does not (the default fresh set is dropped). -/
def discardEntry (m : Nat → Option (Finset Nat)) (k x : Nat) :
    Nat → Option (Finset Nat) :=
  fun j => if j = k then (m k).map (fun s => s.erase x) else m j

/-- `d.setdefault(k, set()).add(x)`: creates the entry if absent, then
inserts `x`. -/
def setdefaultAdd (m : Nat → Option (Finset Nat)) (k x : Nat) :
    Nat → Option (Finset Nat) :=
  fun j => if j = k then some (insert x ((m k).getD ∅)) else m j

/-- `_NotificationListener.notify(notifier, events, start_token, end_token)`:
fire the deferred with `(events, (start_token, end_token))`, swallowing
`AlreadyCalledError`, then discard `self` from `rooms_to_listeners[room]`
for each `room` in `self.rooms` and from `user_to_listeners[self.user]`. -/
def notify (st : NotifierState) (lid : Nat)
    (events : List Event) (start_token end_token : Token) : NotifierState :=
  let l := st.listeners lid
  { st with
    deferreds := fun i =>
      if i = lid then some ((st.deferreds lid).getD (events, (start_token, end_token)))
      else st.deferreds i
    rooms_to_listeners :=
      l.rooms.foldl (fun m room => discardEntry m room lid) st.rooms_to_listeners
    user_to_listeners := discardEntry st.user_to_listeners l.user lid }

/-- `Notifier._register_with_keys(listener)`. -/
def register_with_keys (st : NotifierState) (lid : Nat) : NotifierState :=
  let l := st.listeners lid
  { st with
    rooms_to_listeners :=
      l.rooms.foldl (fun m room => setdefaultAdd m room lid) st.rooms_to_listeners
    user_to_listeners := setdefaultAdd st.user_to_listeners l.user lid }

/-- `Notifier._timeout_listener(listener)`: notify with an empty list and
`from_token` as both start and end token. -/
def timeout_listener (st : NotifierState) (lid : Nat) : NotifierState :=
  notify st lid [] (st.listeners lid).from_token (st.listeners lid).from_token

/-- The loop body of `Notifier._check_for_updates`: walk the sources in
order, carrying the running token; each source is queried with the running
token and its returned token becomes the next running token; events are
accumulated by `extend`. Returns `(events, end_token)`. -/
def check_loop (user limit : Nat) : List Source → Token → List Event × Token
  | [], tok => ([], tok)
  | s :: rest, tok =>
    let r := s user tok limit
    let rec' := check_loop user limit rest r.2
    (r.1 ++ rec'.1, rec'.2)

/-- `Notifier._check_for_updates(listener)`: run the catch-up loop from the
listener's `from_token`; if any events were accumulated, notify the
listener with `(events, listener.from_token, end_token)`. -/
def check_for_updates (sources : List Source) (st : NotifierState)
    (lid : Nat) : NotifierState :=
  let l := st.listeners lid
  let r := check_loop l.user l.limit sources l.from_token
  if r.1 = [] then st else notify st lid r.1 l.from_token r.2

/-- Step 1 of `_get_events`: construct the `_NotificationListener` object
under the fresh id `lid`. -/
def with_listener (st : NotifierState) (lid : Nat) (l : Listener) : NotifierState :=
  { st with listeners := fun i => if i = lid then l else st.listeners i }

/-- The successive states of `Notifier._get_events(deferred, user, rooms,
from_token, limit, timeout)`:
1. resolve `from_token` (falling back to the aggregate's current token)
   and construct the listener object under the fresh id `lid`;
2. if `timeout` is truthy, arm the deadline timer and `_register_with_keys`;
3. `_check_for_updates`;
4. if `timeout` is falsy, `_timeout_listener` immediately.
Returns the state after each of steps 1–4. -/
def get_events_stages (sources : List Source) (current_token : Token)
    (st : NotifierState) (lid user : Nat) (rooms : List Nat)
    (from_token? : Option Token) (limit timeout : Nat) :
    NotifierState × NotifierState × NotifierState × NotifierState :=
  let ft := from_token?.getD current_token
  let st1 := with_listener st lid ⟨user, rooms, ft, limit, timeout⟩
  let st2 := if timeout ≠ 0 then register_with_keys st1 lid else st1
  let st3 := check_for_updates sources st2 lid
  let st4 := if timeout = 0 then timeout_listener st3 lid else st3
  (st1, st2, st3, st4)

/-- `Notifier._get_events`: the final state of `get_events_stages`. -/
def get_events (sources : List Source) (current_token : Token)
    (st : NotifierState) (lid user : Nat) (rooms : List Nat)
    (from_token? : Option Token) (limit timeout : Nat) : NotifierState :=
  (get_events_stages sources current_token st lid user rooms from_token? limit timeout).2.2.2

/-- The candidate set of `Notifier.on_new_room_event(event, extra_users)`:
`rooms_to_listeners.get(room_id, set()).copy()` unioned with
`user_to_listeners.get(user, set()).copy()` for each `user` in
`extra_users`, before the iteration starts (a snapshot). -/
def roomEventCandidates (st : NotifierState) (room_id : Nat)
    (extra_users : List Nat) : Finset Nat :=
  extra_users.foldl (fun acc u => acc ∪ (st.user_to_listeners u).getD ∅)
    ((st.rooms_to_listeners room_id).getD ∅)

/-- The iteration of `Notifier.on_new_room_event` over the snapshotted
candidate set, in some enumeration `order`: query the `room` source with
the listener's own `from_token` and `limit`; notify iff the result is
non-empty. -/
def wake_listeners (roomSource : Source) : NotifierState → List Nat → NotifierState
  | st, [] => st
  | st, lid :: rest =>
    let l := st.listeners lid
    let r := roomSource l.user l.from_token l.limit
    let st' := if r.1 = [] then st else notify st lid r.1 l.from_token r.2
    wake_listeners roomSource st' rest

/-- `Notifier._user_joined_room(user, room_id)`:
`rooms_to_listeners.setdefault(room_id, set()) |= user_to_listeners.get(user, set())`. -/
def user_joined_room (st : NotifierState) (user room_id : Nat) : NotifierState :=
  let new_listeners := (st.user_to_listeners user).getD ∅
  { st with
    rooms_to_listeners := fun j =>
      if j = room_id then some (((st.rooms_to_listeners room_id).getD ∅) ∪ new_listeners)
      else st.rooms_to_listeners j }

/-- Spec-side description of the sequential catch-up loop: the list of
`(input_token, events, output_token)` triples produced when the sources are
queried in order with the cursor chained. Used to compare `check_loop`
against the specification's wording. -/
def chainSteps (user limit : Nat) : List Source → Token → List (Token × List Event × Token)
  | [], _ => []
  | s :: rest, tok =>
    let r := s user tok limit
    (tok, r.1, r.2) :: chainSteps user limit rest r.2

/-- Default source for bounded `List.getD` lookups (never actually used). -/
def idleSource : Source := fun _ tok _ => ([], tok)

/-! ### Concrete objects used by witnesses -/

/-- A source that never has news. -/
def emptySource : Source := fun _ tok _ => ([], tok)

/-- A source returning one event and advancing the cursor by one. -/
def srcA : Source := fun _ tok _ => ([tok + 100], tok + 1)

/-- A source returning two events and advancing the cursor by five. -/
def srcB : Source := fun _ tok _ => ([tok + 200, tok + 201], tok + 5)

/-- A room source with news for user `7` only. -/
def exSrc : Source := fun u tok _ => if u = 7 then ([tok + 100], tok + 1) else ([], tok)

/-- Listener `0` of the example states: user `7`, interested in room `1`,
starting cursor `4`. -/
def exListener0 : Listener := ⟨7, [1], 4, 10, 5000⟩

/-- Listener `5` of the example states: user `8`, interested in room `1`,
starting cursor `6`. -/
def exListener5 : Listener := ⟨8, [1], 6, 10, 5000⟩

/-- Listener `0` registered for room `1` and user `7`, still pending. -/
def exState : NotifierState where
  rooms_to_listeners := fun j => if j = 1 then some {0} else none
  user_to_listeners := fun u => if u = 7 then some {0} else none
  listeners := fun _ => exListener0
  deferreds := fun _ => none

/-- Listeners `0` and `5` both registered for room `1`, still pending. -/
def exState2 : NotifierState where
  rooms_to_listeners := fun j => if j = 1 then some {0, 5} else none
  user_to_listeners := fun u => if u = 7 then some {0} else if u = 8 then some {5} else none
  listeners := fun i => if i = 5 then exListener5 else exListener0
  deferreds := fun _ => none

/-- Listener `0` registered for user `7` only (`rooms = []`), still
pending; no room entries exist yet. -/
def exStateNoRooms : NotifierState where
  rooms_to_listeners := fun _ => none
  user_to_listeners := fun u => if u = 7 then some {0} else none
  listeners := fun _ => ⟨7, [], 4, 10, 5000⟩
  deferreds := fun _ => none

/-- A state with no listeners at all. -/
def emptyState : NotifierState where
  rooms_to_listeners := fun _ => none
  user_to_listeners := fun _ => none
  listeners := fun _ => ⟨0, [], 0, 0, 0⟩
  deferreds := fun _ => none

/-! ### Helper lemmas (shared) -/

lemma foldl_discard_apply (rs : List Nat) (m : Nat → Option (Finset Nat)) (x j : Nat) :
    (rs.foldl (fun m' room => discardEntry m' room x) m) j =
    if j ∈ rs then (m j).map (fun s => s.erase x) else m j := by
  induction rs generalizing m with
  | nil => simp
  | cons r rest ih =>
    simp only [List.foldl_cons, ih, List.mem_cons]
    by_cases hjr : j = r
    · subst hjr
      by_cases hmem : j ∈ rest
      · cases hm : m j with
        | none => simp [hmem, discardEntry, hm]
        | some s => simp [hmem, discardEntry, hm, Finset.erase_idem]
      · simp [hmem, discardEntry]
    · by_cases hmem : j ∈ rest
      · simp [hmem, hjr, discardEntry]
      · simp [hmem, hjr, discardEntry]

lemma foldl_setdefaultAdd_apply (rs : List Nat) (m : Nat → Option (Finset Nat)) (x j : Nat) :
    (rs.foldl (fun m' k => setdefaultAdd m' k x) m) j =
    if j ∈ rs then some (insert x ((m j).getD ∅)) else m j := by
  induction rs generalizing m with
  | nil => simp
  | cons r rest ih =>
    simp only [List.foldl_cons, ih, List.mem_cons]
    by_cases hjr : j = r
    · subst hjr
      by_cases hmem : j ∈ rest
      · simp [hmem, setdefaultAdd, Finset.insert_idem]
      · simp [hmem, setdefaultAdd]
    · by_cases hmem : j ∈ rest
      · simp [hmem, hjr, setdefaultAdd]
      · simp [hmem, hjr, setdefaultAdd]

lemma notify_listeners (st : NotifierState) (lid : Nat)
    (e : List Event) (a b : Token) : (notify st lid e a b).listeners = st.listeners := rfl

lemma notify_deferreds_self (st : NotifierState) (lid : Nat)
    (e : List Event) (a b : Token) :
    (notify st lid e a b).deferreds lid =
      some ((st.deferreds lid).getD (e, (a, b))) := by
  simp [notify]

lemma notify_deferreds_other (st : NotifierState) (lid x : Nat)
    (e : List Event) (a b : Token) (hx : x ≠ lid) :
    (notify st lid e a b).deferreds x = st.deferreds x := by
  simp [notify, hx]

lemma mem_rooms_notify (st : NotifierState) (lid : Nat)
    (e : List Event) (a b : Token) (x j : Nat) :
    x ∈ ((notify st lid e a b).rooms_to_listeners j).getD ∅ ↔
      x ∈ (st.rooms_to_listeners j).getD ∅ ∧
        ¬(x = lid ∧ j ∈ (st.listeners lid).rooms) := by
  simp only [notify, foldl_discard_apply]
  by_cases hj : j ∈ (st.listeners lid).rooms
  · cases hm : st.rooms_to_listeners j with
    | none => simp [hj, hm]
    | some s => simp [hj, hm, Finset.mem_erase, and_comm, eq_comm]
  · simp [hj]

lemma mem_user_notify (st : NotifierState) (lid : Nat)
    (e : List Event) (a b : Token) (x u : Nat) :
    x ∈ ((notify st lid e a b).user_to_listeners u).getD ∅ ↔
      x ∈ (st.user_to_listeners u).getD ∅ ∧
        ¬(x = lid ∧ u = (st.listeners lid).user) := by
  simp only [notify, discardEntry]
  by_cases hu : u = (st.listeners lid).user
  · cases hm : st.user_to_listeners (st.listeners lid).user with
    | none => simp [hu, hm]
    | some s => simp [hu, hm, Finset.mem_erase, and_comm, eq_comm]
  · simp [hu]

lemma mem_rooms_register (st : NotifierState) (lid x j : Nat) :
    x ∈ ((register_with_keys st lid).rooms_to_listeners j).getD ∅ ↔
      x ∈ (st.rooms_to_listeners j).getD ∅ ∨
        (x = lid ∧ j ∈ (st.listeners lid).rooms) := by
  simp only [register_with_keys, foldl_setdefaultAdd_apply]
  by_cases hj : j ∈ (st.listeners lid).rooms
  · simp [hj, Finset.mem_insert, or_comm, eq_comm]
  · simp [hj]

lemma mem_user_register (st : NotifierState) (lid x u : Nat) :
    x ∈ ((register_with_keys st lid).user_to_listeners u).getD ∅ ↔
      x ∈ (st.user_to_listeners u).getD ∅ ∨
        (x = lid ∧ u = (st.listeners lid).user) := by
  simp only [register_with_keys, setdefaultAdd]
  by_cases hu : u = (st.listeners lid).user
  · simp [hu, Finset.mem_insert, or_comm, eq_comm]
  · simp [hu]

lemma register_listeners (st : NotifierState) (lid : Nat) :
    (register_with_keys st lid).listeners = st.listeners := rfl

lemma register_deferreds (st : NotifierState) (lid : Nat) :
    (register_with_keys st lid).deferreds = st.deferreds := rfl

lemma notify_rooms_apply (st : NotifierState) (lid : Nat)
    (e : List Event) (a b : Token) (j : Nat) :
    (notify st lid e a b).rooms_to_listeners j =
      if j ∈ (st.listeners lid).rooms
      then (st.rooms_to_listeners j).map (fun s => s.erase lid)
      else st.rooms_to_listeners j := by
  simp only [notify]
  exact foldl_discard_apply _ _ _ _

lemma notify_user_apply (st : NotifierState) (lid : Nat)
    (e : List Event) (a b : Token) (u : Nat) :
    (notify st lid e a b).user_to_listeners u =
      if u = (st.listeners lid).user
      then (st.user_to_listeners u).map (fun s => s.erase lid)
      else st.user_to_listeners u := by
  simp only [notify, discardEntry]
  by_cases hu : u = (st.listeners lid).user
  · simp [hu]
  · simp [hu]

lemma notify_notify (st : NotifierState) (lid : Nat)
    (e1 e2 : List Event) (a1 b1 a2 b2 : Token) :
    notify (notify st lid e1 a1 b1) lid e2 a2 b2 = notify st lid e1 a1 b1 := by
  apply NotifierState.ext
  · funext j
    rw [notify_rooms_apply, notify_rooms_apply, notify_listeners]
    by_cases hj : j ∈ (st.listeners lid).rooms
    · simp only [hj, if_true]
      cases hm : st.rooms_to_listeners j with
      | none => rfl
      | some s => simp [Finset.erase_idem]
    · simp [hj]
  · funext u
    rw [notify_user_apply, notify_user_apply, notify_listeners]
    by_cases hu : u = (st.listeners lid).user
    · simp only [hu, if_true]
      cases hm : st.user_to_listeners (st.listeners lid).user with
      | none => rfl
      | some s => simp [Finset.erase_idem]
    · simp [hu]
  · rfl
  · funext i
    by_cases hi : i = lid
    · subst hi
      rw [notify_deferreds_self, notify_deferreds_self]
      simp
    · rw [notify_deferreds_other _ _ _ _ _ _ hi, notify_deferreds_other _ _ _ _ _ _ hi]

lemma wake_step (src : Source) (st : NotifierState) (lid : Nat) (rest : List Nat) :
    wake_listeners src st (lid :: rest) =
    wake_listeners src
      (if (src (st.listeners lid).user (st.listeners lid).from_token (st.listeners lid).limit).1 = []
       then st
       else notify st lid
         (src (st.listeners lid).user (st.listeners lid).from_token (st.listeners lid).limit).1
         (st.listeners lid).from_token
         (src (st.listeners lid).user (st.listeners lid).from_token (st.listeners lid).limit).2)
      rest := rfl

lemma wake_listeners_stable (src : Source) (order : List Nat) (st : NotifierState) :
    (wake_listeners src st order).listeners = st.listeners := by
  induction order generalizing st with
  | nil => rfl
  | cons lid rest ih =>
    rw [wake_step]
    split
    · exact ih st
    · rw [ih, notify_listeners]

lemma wake_untouched (src : Source) (order : List Nat) (st : NotifierState) (x : Nat)
    (hx : x ∈ order →
      (src (st.listeners x).user (st.listeners x).from_token (st.listeners x).limit).1 = []) :
    (wake_listeners src st order).deferreds x = st.deferreds x ∧
    (∀ j, x ∈ ((wake_listeners src st order).rooms_to_listeners j).getD ∅ ↔
      x ∈ (st.rooms_to_listeners j).getD ∅) ∧
    (∀ u, x ∈ ((wake_listeners src st order).user_to_listeners u).getD ∅ ↔
      x ∈ (st.user_to_listeners u).getD ∅) := by
  induction order generalizing st with
  | nil => exact ⟨rfl, fun _ => Iff.rfl, fun _ => Iff.rfl⟩
  | cons lid rest ih =>
    rw [wake_step]
    by_cases hq :
        (src (st.listeners lid).user (st.listeners lid).from_token (st.listeners lid).limit).1 = []
    · rw [if_pos hq]
      exact ih st (fun hmem => hx (List.mem_cons_of_mem _ hmem))
    · rw [if_neg hq]
      by_cases hxl : x = lid
      · exact absurd (hx (hxl ▸ List.mem_cons_self _ _)) (hxl ▸ hq)
      · obtain ⟨h1, h2, h3⟩ := ih
          (notify st lid
            (src (st.listeners lid).user (st.listeners lid).from_token (st.listeners lid).limit).1
            (st.listeners lid).from_token
            (src (st.listeners lid).user (st.listeners lid).from_token (st.listeners lid).limit).2)
          (fun hmem => by
            rw [notify_listeners]
            exact hx (List.mem_cons_of_mem _ hmem))
        refine ⟨?_, ?_, ?_⟩
        · rw [h1, notify_deferreds_other _ _ _ _ _ _ hxl]
        · intro j
          rw [h2 j, mem_rooms_notify]
          simp [hxl]
        · intro u
          rw [h3 u, mem_user_notify]
          simp [hxl]

lemma wake_notified (src : Source) (order : List Nat) (st : NotifierState) (x : Nat)
    (hnd : order.Nodup) (hmem : x ∈ order)
    (hq : (src (st.listeners x).user (st.listeners x).from_token (st.listeners x).limit).1 ≠ []) :
    (wake_listeners src st order).deferreds x =
      some ((st.deferreds x).getD
        ((src (st.listeners x).user (st.listeners x).from_token (st.listeners x).limit).1,
         ((st.listeners x).from_token,
          (src (st.listeners x).user (st.listeners x).from_token (st.listeners x).limit).2))) := by
  induction order generalizing st with
  | nil => cases hmem
  | cons lid rest ih =>
    rw [wake_step]
    by_cases hxl : x = lid
    · subst hxl
      rw [if_neg hq]
      have hnotin : x ∉ rest := (List.nodup_cons.mp hnd).1
      have hu := (wake_untouched src rest
        (notify st x
          (src (st.listeners x).user (st.listeners x).from_token (st.listeners x).limit).1
          (st.listeners x).from_token
          (src (st.listeners x).user (st.listeners x).from_token (st.listeners x).limit).2)
        x (fun hmem' => absurd hmem' hnotin)).1
      rw [hu, notify_deferreds_self]
    · have hmem' : x ∈ rest := by
        rcases List.mem_cons.mp hmem with h | h
        · exact absurd h hxl
        · exact h
      have hnd' : rest.Nodup := (List.nodup_cons.mp hnd).2
      by_cases hql :
          (src (st.listeners lid).user (st.listeners lid).from_token (st.listeners lid).limit).1 = []
      · rw [if_pos hql]
        exact ih st hnd' hmem' hq
      · rw [if_neg hql]
        have := ih
          (notify st lid
            (src (st.listeners lid).user (st.listeners lid).from_token (st.listeners lid).limit).1
            (st.listeners lid).from_token
            (src (st.listeners lid).user (st.listeners lid).from_token (st.listeners lid).limit).2)
          hnd' hmem' (by rw [notify_listeners]; exact hq)
        rw [notify_listeners] at this
        rw [this, notify_deferreds_other _ _ _ _ _ _ hxl]

lemma chainSteps_length (user limit : Nat) (sources : List Source) (ft : Token) :
    (chainSteps user limit sources ft).length = sources.length := by
  induction sources generalizing ft with
  | nil => rfl
  | cons s rest ih => simp [chainSteps, ih]

lemma chainSteps_input_zero (user limit : Nat) (sources : List Source) (ft : Token)
    (h : sources ≠ []) :
    ((chainSteps user limit sources ft).getD 0 (0, [], 0)).1 = ft := by
  cases sources with
  | nil => exact absurd rfl h
  | cons s rest => simp [chainSteps]

lemma chainSteps_getD_succ (user limit : Nat) (s : Source) (rest : List Source)
    (ft : Token) (i : Nat) :
    (chainSteps user limit (s :: rest) ft).getD (i + 1) (0, [], 0) =
      (chainSteps user limit rest (s user ft limit).2).getD i (0, [], 0) := by
  simp [chainSteps]

lemma chainSteps_step (user limit : Nat) (sources : List Source) (ft : Token)
    (i : Nat) (h : i < sources.length) :
    ((chainSteps user limit sources ft).getD i (0, [], 0)).2 =
      (sources.getD i idleSource) user
        ((chainSteps user limit sources ft).getD i (0, [], 0)).1 limit := by
  induction sources generalizing ft i with
  | nil => exact absurd h (Nat.not_lt_zero i)
  | cons s rest ih =>
    cases i with
    | zero => simp [chainSteps]
    | succ n =>
      rw [chainSteps_getD_succ, List.getD_cons_succ]
      exact ih (s user ft limit).2 n (Nat.lt_of_succ_lt_succ h)

lemma chainSteps_chain (user limit : Nat) (sources : List Source) (ft : Token)
    (i : Nat) (h : i + 1 < sources.length) :
    ((chainSteps user limit sources ft).getD (i + 1) (0, [], 0)).1 =
      ((chainSteps user limit sources ft).getD i (0, [], 0)).2.2 := by
  induction sources generalizing ft i with
  | nil => exact absurd h (Nat.not_lt_zero _)
  | cons s rest ih =>
    cases i with
    | zero =>
      have hrest : rest ≠ [] := by
        intro hr
        rw [hr] at h
        simp at h
      rw [chainSteps_getD_succ]
      have h0 := chainSteps_input_zero user limit rest (s user ft limit).2 hrest
      rw [h0]
      simp [chainSteps]
    | succ n =>
      rw [chainSteps_getD_succ, chainSteps_getD_succ]
      exact ih (s user ft limit).2 n (Nat.lt_of_succ_lt_succ h)

lemma check_loop_eq_chainSteps (user limit : Nat) (sources : List Source) (ft : Token) :
    check_loop user limit sources ft =
      (((chainSteps user limit sources ft).map (fun p => p.2.1)).flatten,
       ((chainSteps user limit sources ft).map (fun p => p.2.2)).getLastD ft) := by
  induction sources generalizing ft with
  | nil => rfl
  | cons s rest ih =>
    simp only [check_loop, chainSteps, List.map_cons, List.flatten_cons,
      List.getLastD_cons, ih]

lemma with_listener_self (st : NotifierState) (lid : Nat) (l : Listener) :
    (with_listener st lid l).listeners lid = l := by
  simp [with_listener]

lemma with_listener_rooms (st : NotifierState) (lid : Nat) (l : Listener) :
    (with_listener st lid l).rooms_to_listeners = st.rooms_to_listeners := rfl

lemma with_listener_user (st : NotifierState) (lid : Nat) (l : Listener) :
    (with_listener st lid l).user_to_listeners = st.user_to_listeners := rfl

lemma with_listener_deferreds (st : NotifierState) (lid : Nat) (l : Listener) :
    (with_listener st lid l).deferreds = st.deferreds := rfl

lemma check_for_updates_no_events (sources : List Source) (st : NotifierState)
    (lid : Nat)
    (hch : (check_loop (st.listeners lid).user (st.listeners lid).limit sources
      (st.listeners lid).from_token).1 = []) :
    check_for_updates sources st lid = st := by
  simp only [check_for_updates]
  rw [if_pos hch]

lemma check_for_updates_with_events (sources : List Source) (st : NotifierState)
    (lid : Nat)
    (hch : (check_loop (st.listeners lid).user (st.listeners lid).limit sources
      (st.listeners lid).from_token).1 ≠ []) :
    check_for_updates sources st lid =
      notify st lid
        (check_loop (st.listeners lid).user (st.listeners lid).limit sources
          (st.listeners lid).from_token).1
        (st.listeners lid).from_token
        (check_loop (st.listeners lid).user (st.listeners lid).limit sources
          (st.listeners lid).from_token).2 := by
  simp only [check_for_updates]
  rw [if_neg hch]

lemma get_events_stages_zero (sources : List Source) (current_token : Token)
    (st : NotifierState) (lid user : Nat) (rooms : List Nat)
    (from_token? : Option Token) (limit : Nat) :
    get_events_stages sources current_token st lid user rooms from_token? limit 0 =
      (with_listener st lid ⟨user, rooms, from_token?.getD current_token, limit, 0⟩,
       with_listener st lid ⟨user, rooms, from_token?.getD current_token, limit, 0⟩,
       check_for_updates sources
         (with_listener st lid ⟨user, rooms, from_token?.getD current_token, limit, 0⟩) lid,
       timeout_listener
         (check_for_updates sources
           (with_listener st lid ⟨user, rooms, from_token?.getD current_token, limit, 0⟩) lid)
         lid) := rfl

lemma get_events_stages_succ (sources : List Source) (current_token : Token)
    (st : NotifierState) (lid user : Nat) (rooms : List Nat)
    (from_token? : Option Token) (limit n : Nat) :
    get_events_stages sources current_token st lid user rooms from_token? limit (n + 1) =
      (with_listener st lid ⟨user, rooms, from_token?.getD current_token, limit, n + 1⟩,
       register_with_keys
         (with_listener st lid ⟨user, rooms, from_token?.getD current_token, limit, n + 1⟩) lid,
       check_for_updates sources
         (register_with_keys
           (with_listener st lid ⟨user, rooms, from_token?.getD current_token, limit, n + 1⟩) lid)
         lid,
       check_for_updates sources
         (register_with_keys
           (with_listener st lid ⟨user, rooms, from_token?.getD current_token, limit, n + 1⟩) lid)
         lid) := rfl

/-! ### Claims -/

/-- **C2.** Resolving a listener a second time (timeout after event wake or
vice versa) is a silent no-op: `notify` is a total function (the
`AlreadyCalledError` of the second `deferred.callback` is caught), the
second call changes no state at all, and the deferred holds exactly the
first delivered result. -/
theorem second_resolution_silent_no_op (st : NotifierState) (lid : Nat)
    (e1 e2 : List Event) (a1 b1 a2 b2 : Token)
    (h : st.deferreds lid = none) :
    notify (notify st lid e1 a1 b1) lid e2 a2 b2 = notify st lid e1 a1 b1 ∧
    (notify (notify st lid e1 a1 b1) lid e2 a2 b2).deferreds lid =
      some (e1, (a1, b1)) := by
  refine ⟨notify_notify st lid e1 e2 a1 b1 a2 b2, ?_⟩
  rw [notify_notify st lid e1 e2 a1 b1 a2 b2, notify_deferreds_self, h]
  rfl

/-- Witness for C2 at a concrete pending listener. -/
theorem second_resolution_silent_no_op_witness :
    notify (notify exState 0 [5] 4 9) 0 [] 4 4 = notify exState 0 [5] 4 9 ∧
    (notify (notify exState 0 [5] 4 9) 0 [] 4 4).deferreds 0 =
      some ([5], (4, 9)) :=
  second_resolution_silent_no_op exState 0 [5] [] 4 9 4 4 rfl

/-- **C9.** Resolving listener `lid` removes only `lid` from the indices:
any other listener `x` that was a member of a room or user entry before is
still a member afterwards. -/
theorem notify_frame_other_listeners (st : NotifierState) (lid x : Nat)
    (e : List Event) (a b : Token) (hx : x ≠ lid) :
    (∀ j, x ∈ (st.rooms_to_listeners j).getD ∅ →
      x ∈ ((notify st lid e a b).rooms_to_listeners j).getD ∅) ∧
    (∀ u, x ∈ (st.user_to_listeners u).getD ∅ →
      x ∈ ((notify st lid e a b).user_to_listeners u).getD ∅) := by
  refine ⟨fun j hj => ?_, fun u hu => ?_⟩
  · rw [mem_rooms_notify]
    exact ⟨hj, fun hc => hx hc.1⟩
  · rw [mem_user_notify]
    exact ⟨hu, fun hc => hx hc.1⟩

/-- Witness for C9: listener `5` survives the resolution of listener `0`
in the shared room entry. -/
theorem notify_frame_other_listeners_witness :
    5 ∈ ((notify exState2 0 [9] 4 9).rooms_to_listeners 1).getD ∅ ∧
    5 ∈ ((notify exState2 0 [9] 4 9).user_to_listeners 8).getD ∅ :=
  ⟨(notify_frame_other_listeners exState2 0 5 [9] 4 9 (by decide)).1 1 (by decide),
   (notify_frame_other_listeners exState2 0 5 [9] 4 9 (by decide)).2 8 (by decide)⟩

/-- **C8.** `_user_joined_room(user, room_id)` merges every listener of
`user_to_listeners[user]` into `rooms_to_listeners[room_id]` (creating the
entry if absent), leaves `user_to_listeners` unchanged, and keeps every
previous member of `rooms_to_listeners[room_id]`. -/
theorem user_joined_room_merge (st : NotifierState) (user room_id : Nat) :
    (∀ x ∈ (st.user_to_listeners user).getD ∅,
      x ∈ ((user_joined_room st user room_id).rooms_to_listeners room_id).getD ∅) ∧
    (user_joined_room st user room_id).user_to_listeners = st.user_to_listeners ∧
    (∀ x ∈ (st.rooms_to_listeners room_id).getD ∅,
      x ∈ ((user_joined_room st user room_id).rooms_to_listeners room_id).getD ∅) ∧
    (user_joined_room st user room_id).rooms_to_listeners room_id ≠ none := by
  refine ⟨fun x hx => ?_, rfl, fun x hx => ?_, ?_⟩
  · simp [user_joined_room, Finset.mem_union, hx]
  · simp [user_joined_room, Finset.mem_union, hx]
  · simp [user_joined_room]

/-- Witness for C8: user `7` joins the previously absent room `2`. -/
theorem user_joined_room_merge_witness :
    0 ∈ ((user_joined_room exState 7 2).rooms_to_listeners 2).getD ∅ ∧
    (user_joined_room exState 7 2).rooms_to_listeners 2 ≠ none :=
  ⟨(user_joined_room_merge exState 7 2).1 0 (by decide),
   (user_joined_room_merge exState 7 2).2.2.2⟩

/-- **C4.** `_check_for_updates` queries the sources sequentially with the
cursor chained: the loop's result is the concatenation of the per-step
events with the last step's cursor as end cursor, each step applies its
source to its input token, the first step's input is the listener's
`from_token`, and step `i + 1`'s input is step `i`'s output token. -/
theorem check_for_updates_sequential_chaining (user limit : Nat)
    (sources : List Source) (ft : Token) :
    check_loop user limit sources ft =
      (((chainSteps user limit sources ft).map (fun p => p.2.1)).flatten,
       ((chainSteps user limit sources ft).map (fun p => p.2.2)).getLastD ft) ∧
    (∀ i, i < sources.length →
      ((chainSteps user limit sources ft).getD i (0, [], 0)).2 =
        (sources.getD i idleSource) user
          ((chainSteps user limit sources ft).getD i (0, [], 0)).1 limit) ∧
    (sources ≠ [] → ((chainSteps user limit sources ft).getD 0 (0, [], 0)).1 = ft) ∧
    (∀ i, i + 1 < sources.length →
      ((chainSteps user limit sources ft).getD (i + 1) (0, [], 0)).1 =
        ((chainSteps user limit sources ft).getD i (0, [], 0)).2.2) :=
  ⟨check_loop_eq_chainSteps user limit sources ft,
   fun i h => chainSteps_step user limit sources ft i h,
   fun h => chainSteps_input_zero user limit sources ft h,
   fun i h => chainSteps_chain user limit sources ft i h⟩

/-- Witness for C4 with two concrete sources: the second source runs from
the first source's output cursor `5`, and the loop concatenates. -/
theorem check_for_updates_sequential_chaining_witness :
    check_loop 0 10 [srcA, srcB] 4 = ([104, 205, 206], 10) ∧
    ((chainSteps 0 10 [srcA, srcB] 4).getD 1 (0, [], 0)).1 = 5 := by
  have h := check_for_updates_sequential_chaining 0 10 [srcA, srcB] 4
  refine ⟨?_, ?_⟩
  · rw [h.1]
    decide
  · rw [h.2.2.2 0 (by decide)]
    decide

/-- **C1 fails on the code** (code bug): listener `0` (user `7`,
`rooms = []`) is registered for its user only; `_user_joined_room(7, 3)`
merges it into `rooms_to_listeners[3]`; the deadline then resolves it.
`notify` discards the listener only from the rooms in `listener.rooms`
and from its user entry, so after resolution the listener is gone from the
user index but still sits in `rooms_to_listeners[3]` — a dangling
reference the spec's no-leak invariant forbids. -/
theorem resolved_listener_leaks_merged_room :
    (timeout_listener (user_joined_room exStateNoRooms 7 3) 0).deferreds 0 =
      some ([], (4, 4)) ∧
    0 ∈ ((timeout_listener (user_joined_room exStateNoRooms 7 3) 0).rooms_to_listeners 3).getD ∅ ∧
    0 ∉ ((timeout_listener (user_joined_room exStateNoRooms 7 3) 0).user_to_listeners 7).getD ∅ := by
  decide

/-- **C6 as stated is false**: listener `0` is registered normally
(rooms `[1]`, user `7`, `from_token = 4`) and still unresolved;
`_user_joined_room(7, 2)` merges it into `rooms_to_listeners[2]`; the
deadline then fires. The timeout path does resolve it with
`([], (4, 4))`, but it does not purge it from the indices: the listener is
still a member of `rooms_to_listeners[2]`. -/
theorem timeout_leaves_merged_room_cex :
    (timeout_listener (user_joined_room exState 7 2) 0).deferreds 0 =
      some ([], (4, 4)) ∧
    0 ∈ ((timeout_listener (user_joined_room exState 7 2) 0).rooms_to_listeners 2).getD ∅ := by
  decide

/-- **C6 amended.** For every registered listener whose deadline fires while
it is still unresolved, `_timeout_listener` resolves it with an empty event
list and `start = end = from_token`, the listener's original starting
cursor — and purges it from the index entries its registration created:
every room of `listener.rooms` and its own user entry. (Entries it was
merged into by `_user_joined_room` for rooms outside `listener.rooms` are
not purged; that leak is the counterexample above and the C1 bug.) -/
theorem timeout_resolves_empty_with_from_token (st : NotifierState) (lid : Nat)
    (hpend : st.deferreds lid = none) :
    (timeout_listener st lid).deferreds lid =
      some ([], ((st.listeners lid).from_token, (st.listeners lid).from_token)) ∧
    (∀ j ∈ (st.listeners lid).rooms,
      lid ∉ ((timeout_listener st lid).rooms_to_listeners j).getD ∅) ∧
    lid ∉ ((timeout_listener st lid).user_to_listeners (st.listeners lid).user).getD ∅ := by
  refine ⟨?_, fun j hj => ?_, ?_⟩
  · rw [timeout_listener, notify_deferreds_self, hpend]
    rfl
  · rw [timeout_listener, mem_rooms_notify]
    rintro ⟨hin, hni⟩
    exact hni ⟨rfl, hj⟩
  · rw [timeout_listener, mem_user_notify]
    rintro ⟨hin, hni⟩
    exact hni ⟨rfl, rfl⟩

/-- Witness for the amended C6 at the counterexample's own input: the
merged listener still gets the empty payload with its original cursor and
leaves its registration footprint (room `1`, user `7`). -/
theorem timeout_resolves_empty_with_from_token_witness :
    (timeout_listener (user_joined_room exState 7 2) 0).deferreds 0 =
      some ([], (4, 4)) ∧
    (∀ j ∈ [1], 0 ∉
      ((timeout_listener (user_joined_room exState 7 2) 0).rooms_to_listeners j).getD ∅) ∧
    0 ∉ ((timeout_listener (user_joined_room exState 7 2) 0).user_to_listeners 7).getD ∅ :=
  timeout_resolves_empty_with_from_token (user_joined_room exState 7 2) 0 rfl

/-- **C5.** A `timeout = 0` call whose immediate check finds no events
resolves the listener synchronously with an empty event list and
`start = end = from_token`, and both indices come out exactly as they went
in: the listener is never inserted. -/
theorem get_events_zero_timeout_no_events (sources : List Source)
    (current_token : Token) (st : NotifierState) (lid user : Nat)
    (rooms : List Nat) (from_token? : Option Token) (limit : Nat)
    (hch : (check_loop user limit sources (from_token?.getD current_token)).1 = [])
    (hpend : st.deferreds lid = none)
    (hr : ∀ j, lid ∉ (st.rooms_to_listeners j).getD ∅)
    (hu : ∀ u, lid ∉ (st.user_to_listeners u).getD ∅) :
    (get_events sources current_token st lid user rooms from_token? limit 0).deferreds lid =
      some ([], (from_token?.getD current_token, from_token?.getD current_token)) ∧
    (get_events sources current_token st lid user rooms from_token? limit 0).rooms_to_listeners =
      st.rooms_to_listeners ∧
    (get_events sources current_token st lid user rooms from_token? limit 0).user_to_listeners =
      st.user_to_listeners := by
  have hl := with_listener_self st lid ⟨user, rooms, from_token?.getD current_token, limit, 0⟩
  have hcfu : check_for_updates sources
      (with_listener st lid ⟨user, rooms, from_token?.getD current_token, limit, 0⟩) lid =
      with_listener st lid ⟨user, rooms, from_token?.getD current_token, limit, 0⟩ :=
    check_for_updates_no_events _ _ _ (by rw [hl]; exact hch)
  have hge : get_events sources current_token st lid user rooms from_token? limit 0 =
      timeout_listener
        (with_listener st lid ⟨user, rooms, from_token?.getD current_token, limit, 0⟩) lid := by
    simp only [get_events, get_events_stages_zero, hcfu]
  rw [hge]
  refine ⟨?_, ?_, ?_⟩
  · rw [timeout_listener, notify_deferreds_self, with_listener_deferreds, hpend, hl]
    rfl
  · funext j
    rw [timeout_listener, notify_rooms_apply, hl, with_listener_rooms]
    by_cases hj : j ∈ rooms
    · simp only [hj, if_true]
      cases hm : st.rooms_to_listeners j with
      | none => rfl
      | some s =>
        have : lid ∉ s := by
          have := hr j
          rw [hm] at this
          exact this
        simp [Finset.erase_eq_of_not_mem this]
    · simp [hj]
  · funext u
    rw [timeout_listener, notify_user_apply, hl, with_listener_user]
    by_cases hc : u = user
    · simp only [hc, if_true]
      cases hm : st.user_to_listeners user with
      | none => rfl
      | some s =>
        have : lid ∉ s := by
          have := hu user
          rw [hm] at this
          exact this
        simp [Finset.erase_eq_of_not_mem this]
    · simp [hc]

/-- Witness for C5: a fresh listener polls once against a silent source. -/
theorem get_events_zero_timeout_no_events_witness :
    (get_events [emptySource] 3 emptyState 0 7 [1] none 10 0).deferreds 0 =
      some ([], (3, 3)) ∧
    (get_events [emptySource] 3 emptyState 0 7 [1] none 10 0).rooms_to_listeners =
      emptyState.rooms_to_listeners :=
  ⟨(get_events_zero_timeout_no_events [emptySource] 3 emptyState 0 7 [1] none 10
      rfl rfl (fun j => by simp [emptyState]) (fun u => by simp [emptyState])).1,
   (get_events_zero_timeout_no_events [emptySource] 3 emptyState 0 7 [1] none 10
      rfl rfl (fun j => by simp [emptyState]) (fun u => by simp [emptyState])).2.1⟩

/-- **C10.** A `timeout = 0` call whose immediate check returns events
delivers that event list with `(from_token, composite_end_cursor)` to the
caller: the unconditional empty-payload `_timeout_listener` that follows
the check is absorbed by the already-fired deferred and never observed. -/
theorem get_events_zero_timeout_with_events (sources : List Source)
    (current_token : Token) (st : NotifierState) (lid user : Nat)
    (rooms : List Nat) (from_token? : Option Token) (limit : Nat)
    (hne : (check_loop user limit sources (from_token?.getD current_token)).1 ≠ [])
    (hpend : st.deferreds lid = none) :
    (get_events sources current_token st lid user rooms from_token? limit 0).deferreds lid =
      some ((check_loop user limit sources (from_token?.getD current_token)).1,
        (from_token?.getD current_token,
         (check_loop user limit sources (from_token?.getD current_token)).2)) := by
  have hl := with_listener_self st lid ⟨user, rooms, from_token?.getD current_token, limit, 0⟩
  have hcfu : check_for_updates sources
      (with_listener st lid ⟨user, rooms, from_token?.getD current_token, limit, 0⟩) lid =
      notify (with_listener st lid ⟨user, rooms, from_token?.getD current_token, limit, 0⟩) lid
        (check_loop user limit sources (from_token?.getD current_token)).1
        (from_token?.getD current_token)
        (check_loop user limit sources (from_token?.getD current_token)).2 := by
    have h := check_for_updates_with_events sources
      (with_listener st lid ⟨user, rooms, from_token?.getD current_token, limit, 0⟩) lid
      (by rw [hl]; exact hne)
    rw [hl] at h
    exact h
  have hge : get_events sources current_token st lid user rooms from_token? limit 0 =
      timeout_listener
        (notify (with_listener st lid ⟨user, rooms, from_token?.getD current_token, limit, 0⟩) lid
          (check_loop user limit sources (from_token?.getD current_token)).1
          (from_token?.getD current_token)
          (check_loop user limit sources (from_token?.getD current_token)).2) lid := by
    simp only [get_events, get_events_stages_zero, hcfu]
  rw [hge, timeout_listener, notify_deferreds_self, notify_deferreds_self,
    with_listener_deferreds, hpend]
  rfl

/-- Witness for C10: the immediate events survive the follow-up empty
timeout resolution. -/
theorem get_events_zero_timeout_with_events_witness :
    (get_events [srcA] 3 emptyState 0 7 [1] none 10 0).deferreds 0 =
      some ([103], (3, 4)) :=
  get_events_zero_timeout_with_events [srcA] 3 emptyState 0 7 [1] none 10
    (by decide) rfl

/-- **C3 as stated is false**: with `timeout = 5000` and an immediate check
that does return an event (`srcA` from cursor `3` yields `[103]`), the
listener is nevertheless present in both indices in the state right after
step 2 of `_get_events` — registration happens before the check runs, not
only after a check with no events. -/
theorem get_events_registers_before_check_cex :
    (check_loop 7 10 [srcA] 3).1 = [103] ∧
    0 ∈ (((get_events_stages [srcA] 3 emptyState 0 7 [1] none 10 5000).2.1).rooms_to_listeners 1).getD ∅ ∧
    0 ∈ (((get_events_stages [srcA] 3 emptyState 0 7 [1] none 10 5000).2.1).user_to_listeners 7).getD ∅ := by
  decide

/-- **C3 amended.** With a non-zero timeout, `_get_events` registers the
listener into both indices *before* the immediate check; if that check
returns a non-empty event list the listener is resolved during the check
with `(events, from_token, composite_end_cursor)` and purged again, so when
`_get_events` returns it is absent from every entry of both indices. -/
theorem get_events_nonzero_timeout_immediate_events (sources : List Source)
    (current_token : Token) (st : NotifierState) (lid user : Nat)
    (rooms : List Nat) (from_token? : Option Token) (limit timeout : Nat)
    (ht : timeout ≠ 0)
    (hne : (check_loop user limit sources (from_token?.getD current_token)).1 ≠ [])
    (hpend : st.deferreds lid = none)
    (hr : ∀ j, lid ∉ (st.rooms_to_listeners j).getD ∅)
    (hu : ∀ u, lid ∉ (st.user_to_listeners u).getD ∅) :
    (∀ j ∈ rooms, lid ∈
      (((get_events_stages sources current_token st lid user rooms from_token? limit timeout).2.1).rooms_to_listeners j).getD ∅) ∧
    lid ∈
      (((get_events_stages sources current_token st lid user rooms from_token? limit timeout).2.1).user_to_listeners user).getD ∅ ∧
    (get_events sources current_token st lid user rooms from_token? limit timeout).deferreds lid =
      some ((check_loop user limit sources (from_token?.getD current_token)).1,
        (from_token?.getD current_token,
         (check_loop user limit sources (from_token?.getD current_token)).2)) ∧
    (∀ j, lid ∉
      ((get_events sources current_token st lid user rooms from_token? limit timeout).rooms_to_listeners j).getD ∅) ∧
    (∀ u, lid ∉
      ((get_events sources current_token st lid user rooms from_token? limit timeout).user_to_listeners u).getD ∅) := by
  obtain ⟨n, rfl⟩ := Nat.exists_eq_succ_of_ne_zero ht
  have hl := with_listener_self st lid
    ⟨user, rooms, from_token?.getD current_token, limit, n + 1⟩
  have hl2 : (register_with_keys
      (with_listener st lid ⟨user, rooms, from_token?.getD current_token, limit, n + 1⟩)
      lid).listeners lid =
      (⟨user, rooms, from_token?.getD current_token, limit, n + 1⟩ : Listener) := by
    rw [register_listeners, hl]
  have hcfu : check_for_updates sources
      (register_with_keys
        (with_listener st lid ⟨user, rooms, from_token?.getD current_token, limit, n + 1⟩) lid)
      lid =
      notify
        (register_with_keys
          (with_listener st lid ⟨user, rooms, from_token?.getD current_token, limit, n + 1⟩) lid)
        lid
        (check_loop user limit sources (from_token?.getD current_token)).1
        (from_token?.getD current_token)
        (check_loop user limit sources (from_token?.getD current_token)).2 := by
    have h := check_for_updates_with_events sources
      (register_with_keys
        (with_listener st lid ⟨user, rooms, from_token?.getD current_token, limit, n + 1⟩) lid)
      lid (by rw [hl2]; exact hne)
    rw [hl2] at h
    exact h
  have hge : get_events sources current_token st lid user rooms from_token? limit (n + 1) =
      notify
        (register_with_keys
          (with_listener st lid ⟨user, rooms, from_token?.getD current_token, limit, n + 1⟩) lid)
        lid
        (check_loop user limit sources (from_token?.getD current_token)).1
        (from_token?.getD current_token)
        (check_loop user limit sources (from_token?.getD current_token)).2 := by
    simp only [get_events, get_events_stages_succ, hcfu]
  have hstg : (get_events_stages sources current_token st lid user rooms from_token? limit (n + 1)).2.1 =
      register_with_keys
        (with_listener st lid ⟨user, rooms, from_token?.getD current_token, limit, n + 1⟩) lid := by
    rw [get_events_stages_succ]
  refine ⟨fun j hj => ?_, ?_, ?_, fun j => ?_, fun u => ?_⟩
  · rw [hstg, mem_rooms_register, hl]
    exact Or.inr ⟨rfl, hj⟩
  · rw [hstg, mem_user_register, hl]
    exact Or.inr ⟨rfl, rfl⟩
  · rw [hge, notify_deferreds_self, register_deferreds, with_listener_deferreds, hpend]
    rfl
  · rw [hge, mem_rooms_notify, hl2]
    rintro ⟨hin, hni⟩
    rw [mem_rooms_register, hl] at hin
    rcases hin with hin | hin
    · rw [with_listener_rooms] at hin
      exact hr j hin
    · exact hni ⟨rfl, hin.2⟩
  · rw [hge, mem_user_notify, hl2]
    rintro ⟨hin, hni⟩
    rw [mem_user_register, hl] at hin
    rcases hin with hin | hin
    · rw [with_listener_user] at hin
      exact hu u hin
    · exact hni ⟨rfl, hin.2⟩

/-- Witness for the amended C3 at the counterexample's input. -/
theorem get_events_nonzero_timeout_immediate_events_witness :
    0 ∈ (((get_events_stages [srcA] 3 emptyState 0 7 [1] none 10 5000).2.1).rooms_to_listeners 1).getD ∅ ∧
    (get_events [srcA] 3 emptyState 0 7 [1] none 10 5000).deferreds 0 =
      some ([103], (3, 4)) ∧
    (∀ j, 0 ∉ ((get_events [srcA] 3 emptyState 0 7 [1] none 10 5000).rooms_to_listeners j).getD ∅) := by
  have h := get_events_nonzero_timeout_immediate_events [srcA] 3 emptyState 0 7 [1]
    none 10 5000 (by decide) (by decide) rfl
    (fun j => by simp [emptyState]) (fun u => by simp [emptyState])
  exact ⟨h.1 1 (by decide), h.2.2.1, h.2.2.2.1⟩

/-- **C7.** `on_new_room_event` iterates (in some order, snapshotted before
any resolution) over exactly the union of `rooms_to_listeners[room_id]`
and the `user_to_listeners` entries of `extra_users`; each candidate is
queried against the room source with its own `from_token` and `limit`, is
resolved with `(events, from_token, new_cursor)` when the result is
non-empty, and is otherwise left untouched: unresolved and with all its
index memberships intact. -/
theorem on_new_room_event_wakes (src : Source) (st : NotifierState)
    (room_id : Nat) (extra_users : List Nat) (order : List Nat)
    (hnd : order.Nodup)
    (hcov1 : ∀ c ∈ order, c ∈ roomEventCandidates st room_id extra_users)
    (hcov2 : ∀ c ∈ roomEventCandidates st room_id extra_users, c ∈ order)
    (hpend : ∀ c ∈ order, st.deferreds c = none) :
    ∀ c ∈ order,
      ((src (st.listeners c).user (st.listeners c).from_token (st.listeners c).limit).1 ≠ [] →
        (wake_listeners src st order).deferreds c =
          some ((src (st.listeners c).user (st.listeners c).from_token (st.listeners c).limit).1,
            ((st.listeners c).from_token,
             (src (st.listeners c).user (st.listeners c).from_token (st.listeners c).limit).2))) ∧
      ((src (st.listeners c).user (st.listeners c).from_token (st.listeners c).limit).1 = [] →
        (wake_listeners src st order).deferreds c = none ∧
        (∀ j, c ∈ ((wake_listeners src st order).rooms_to_listeners j).getD ∅ ↔
          c ∈ (st.rooms_to_listeners j).getD ∅) ∧
        (∀ u, c ∈ ((wake_listeners src st order).user_to_listeners u).getD ∅ ↔
          c ∈ (st.user_to_listeners u).getD ∅)) := by
  intro c hc
  constructor
  · intro hq
    rw [wake_notified src order st c hnd hc hq, hpend c hc]
    rfl
  · intro hq
    obtain ⟨h1, h2, h3⟩ := wake_untouched src order st c (fun _ => hq)
    exact ⟨by rw [h1]; exact hpend c hc, h2, h3⟩

/-- Witness for C7: over `exState2`, listener `0` (user `7`) has news and
resolves; listener `5` (user `8`) has none and stays registered. -/
theorem on_new_room_event_wakes_witness :
    (wake_listeners exSrc exState2 [0, 5]).deferreds 0 = some ([104], (4, 5)) ∧
    (wake_listeners exSrc exState2 [0, 5]).deferreds 5 = none ∧
    5 ∈ ((wake_listeners exSrc exState2 [0, 5]).rooms_to_listeners 1).getD ∅ := by
  have h := on_new_room_event_wakes exSrc exState2 1 [] [0, 5]
    (by decide) (by decide) (by decide) (by decide)
  have h0 := (h 0 (by decide)).1 (by decide)
  have h5 := (h 5 (by decide)).2 (by decide)
  exact ⟨h0, h5.1, (h5.2.1 1).mpr (by decide)⟩

end Synapse
